import Mathlib

/-!
# Verification of the guiqwt cross-section extraction engine

This file gives a shallow embedding, in Lean 4, of the cross-section
extraction logic of `guiqwt/cross_section.py`, and proves (or refutes)
the frozen specification claims about it.

Modelling conventions:
* `numpy` floating-point values are modelled by exact rationals (`ℚ`);
  real-valued formulas from the specification (square roots, floors) are
  stated over `ℝ` and related to the executable integer arithmetic the
  embedding uses.  `numpy` division-by-zero in an empty mean (which
  produces NaN plus a warning, not an exception) is modelled by the
  rational convention `q / 0 = 0`; no settled claim depends on the
  value produced in that corner.
* Python exceptions are modelled by `Except`: functions which can raise
  return `Except PyErr α`, and a `try/except` block is a `match` on the
  result.
* Qt/weakref state: a Python `weakref.ref` cell is `Option (Option α)`
  (`none` = attribute never set, `some none` = dead reference,
  `some (some a)` = live reference).
* External collaborators that are not part of this repository's sources
  (`get_plot_source_rect`, `get_image_from_plot`, the `radavg` kernel,
  image-item pixel lookup) are modelled as function fields of the
  structures that carry them, or as definitions marked
  `Modelled from the spec:`.
-/

/-- The Python exception kinds that can cross the boundaries modelled here. -/
inductive PyErr where
  | valueError
  | zeroDivisionError
  | attributeError
  deriving DecidableEq, Repr

/-- Failures of the external region sampler `get_image_from_plot`
(`guiqwt.image`, not part of the given sources).  Modelled from the spec:
§4.2 says a degenerate region fails with `InvalidRegion` (a `ValueError`)
and resolution scaling can fail with a zero division; these are the two
exception kinds the plot-sampling layer produces. -/
inductive SampErr where
  | valueError
  | zeroDivisionError
  deriving DecidableEq, Repr

/-- Embed a sampler failure into the general exception type. -/
def SampErr.toPyErr : SampErr → PyErr
  | .valueError => .valueError
  | .zeroDivisionError => .zeroDivisionError

/-- Arithmetic mean of a list of rationals (`numpy` `.mean()`); the empty
mean is `0` under the rational convention `0 / 0 = 0`. -/
def listMean (l : List ℚ) : ℚ := l.sum / l.length

/-- Python `max` over a list (`max` of an empty list is never taken by the
embedded code; `0` is a junk value for that case). -/
def listMax : List ℚ → ℚ
  | [] => 0
  | x :: xs => xs.foldl max x

/-- Embedding of `numpy.linspace a b n`: `n` evenly spaced samples from `a` to `b`
inclusive. -/
def linspace (a b : ℚ) (n : ℕ) : List ℚ :=
  if n ≤ 1 then (List.range n).map (fun _ => a)
  else (List.range n).map (fun (i : ℕ) => a + (b - a) * i / (n - 1))

/-- Embedding of `numpy` `m.mean(axis=0)` (column means) for a rectangular matrix given
as a list of rows. -/
def colMeans (m : List (List ℚ)) : List ℚ :=
  match m with
  | [] => []
  | r0 :: _ =>
    (List.range r0.length).map
      (fun c => (m.map (fun row => row.getD c 0)).sum / m.length)

/-- Embedding of `numpy` `m.mean(axis=1)` (row means). -/
def rowMeans (m : List (List ℚ)) : List ℚ := m.map listMean

/-- The value `⌊√n + 1/2⌋` computed in integer arithmetic: the radial-shell index of
a squared distance `n` (the embedding of
`np.floor(np.sqrt(x**2 + y**2) + .5)` in `radial_average`). -/
def rint (n : ℕ) : ℕ := (Nat.sqrt (4 * n) + 1) / 2

/-- The integer radius `int(np.floor(.5*np.sqrt(.5*dx**2 + .5*dy**2)+.5))`
of `compute_radial_section`, computed in integer arithmetic. -/
def radiusInt (dx dy : ℤ) : ℕ :=
  (Nat.sqrt ((dx ^ 2 + dy ^ 2).toNat / 2) + 1) / 2

/-- The shell label of sub-array entry `(j, i)` in `radial_average`:
the code builds `x = i - (ixc-ix0)`, `y = j - (iyc-iy0)` index grids and
takes `np.floor(np.sqrt(x**2+y**2)+.5)` (computed here exactly, in `ℤ`). -/
def shellLabel (ix0 iy0 ixc iyc i j : ℕ) : ℕ :=
  rint ((((ix0 : ℤ) + i - ixc) ^ 2 + ((iy0 : ℤ) + j - iyc) ^ 2).toNat)

/-- The sub-array `orig_data[iy0:iy1, ix0:ix1]` (Python slice semantics:
out-of-range bounds clamp). -/
def subMat (orig : List (List ℚ)) (ix0 iy0 ix1 iy1 : ℕ) : List (List ℚ) :=
  ((orig.drop iy0).take (iy1 - iy0)).map (fun row => (row.drop ix0).take (ix1 - ix0))

/-- Embedding of the pure-Python `radial_average` of
`guiqwt/cross_section.py`: slice the sub-array, build the integer shell
label grid of shape `(iy1-iy0, ix1-ix0)`, and for each shell
`i_r ∈ [0, iradius]` whose member list `data[r == i_r]` is non-empty,
append that list's mean. -/
def radial_average (orig : List (List ℚ)) (ix0 iy0 ix1 iy1 ixc iyc iradius : ℕ) :
    List ℚ :=
  let data := subMat orig ix0 iy0 ix1 iy1
  let rmat := (List.range (iy1 - iy0)).map
    (fun j => (List.range (ix1 - ix0)).map (fun i => shellLabel ix0 iy0 ixc iyc i j))
  let pick := fun (i_r : ℕ) =>
    ((rmat.zip data).map (fun rowp =>
      (rowp.1.zip rowp.2).filterMap
        (fun lv => if lv.1 = i_r then some lv.2 else none))).flatten
  (List.range (iradius + 1)).filterMap (fun i_r =>
    let r_data := pick i_r
    if 0 < r_data.length then some (listMean r_data) else none)

/-- Specification-side description of the pixels of shell `r`: the values
`orig[py][px]`, in row-major order, of the positions of the rectangular
sub-array `[iy0, iy1) × [ix0, ix1)` whose rounded distance to the center
pixel `(ixc, iyc)` is exactly `r`. -/
def shellPixels (orig : List (List ℚ)) (ix0 iy0 ix1 iy1 ixc iyc r : ℕ) : List ℚ :=
  ((List.range' iy0 (iy1 - iy0)).map (fun (py : ℕ) =>
    (List.range' ix0 (ix1 - ix0)).filterMap (fun (px : ℕ) =>
      if rint ((((px : ℤ) - ixc) ^ 2 + ((py : ℤ) - iyc) ^ 2).toNat) = r
      then some ((orig.getD py []).getD px 0) else none))).flatten

/-- Specification-side radial averager: for each shell `r ∈ [0, iradius]`,
the mean of the shell's member pixels, shells with no members omitted. -/
def radialSpec (orig : List (List ℚ)) (ix0 iy0 ix1 iy1 ixc iyc iradius : ℕ) :
    List ℚ :=
  (List.range (iradius + 1)).filterMap (fun r =>
    let mem := shellPixels orig ix0 iy0 ix1 iy1 ixc iyc r
    if 0 < mem.length then some (listMean mem) else none)

/-! ## List plumbing for the radial-average equivalence -/

/-! ## Rounding bridges: integer arithmetic vs the real-number formulas -/

/-- A concrete 5×5 matrix used by witnesses. -/
def mat5 : List (List ℚ) :=
  [[1, 2, 3, 4, 5], [6, 7, 8, 9, 10], [11, 12, 13, 14, 15],
   [16, 17, 18, 19, 20], [21, 22, 23, 24, 25]]

/-! ## Radially-averaged cross section (`compute_radial_section`) -/

/-- Embedding of `np.isnan` on the exact rational model of floating-point values: NaN
cannot arise, so the test is constantly false (the surrounding code keeps
the test so that its control flow matches the source). -/
def isnanQ (_ : ℚ) : Bool := false

/-- A source image item as used by `compute_radial_section`: its pixel
data plus the pixel-index and x-coordinate lookup services of
`guiqwt.image.BaseImageItem` (external to the given sources), modelled as
function fields. -/
structure RASource where
  data : List (List ℚ)
  get_closest_pixel_indexes : ℚ → ℚ → ℤ × ℤ
  get_x_values : ℤ → ℤ → List ℚ

/-- Modelled from the spec: the native radial-binning kernel
`guiqwt._ext.radialaverage.radavg` / `radavg_mask` (the `radavg.f90`
extension is not part of the given sources).  Per §4.4 it fills, for each
shell `r ∈ [0, iradius]`, the mean of the data pixels whose rounded
distance to the center pixel `(ixc, iyc)` is `r`, together with the
per-shell member counts (the mean of an empty shell is `0` in this exact
model, and the mask variant with an all-false mask is identical). -/
def radavgModel (data : List (List ℚ)) (iyc ixc : ℤ) (iradius : ℕ) :
    List ℚ × List ℚ :=
  let members := fun (r : ℕ) =>
    ((List.range data.length).map (fun (py : ℕ) =>
      (List.range (data.getD py []).length).filterMap (fun (px : ℕ) =>
        if rint ((((px : ℤ) - ixc) ^ 2 + ((py : ℤ) - iyc) ^ 2).toNat) = r
        then some ((data.getD py []).getD px 0) else none))).flatten
  ((List.range (iradius + 1)).map (fun r => listMean (members r)),
   (List.range (iradius + 1)).map (fun r => ((members r).length : ℚ)))

/-- Embedding of `compute_radial_section` of `guiqwt/cross_section.py`:
convert the two corners and the data-coordinate midpoint to pixel
indices, compute the integer radius from the corner pixel deltas, return
the empty profile when it is zero, otherwise bin radially (through the
modelled kernel), apply the optional uncertainty function, and shift the
x-axis so it starts at zero (an empty x lookup is tolerated: the
`IndexError` of `xdata[0]` is caught and printed by the source). -/
def compute_radial_section (item : RASource) (x0 y0 x1 y1 : ℚ)
    (dyfunc : Option (List ℚ → List ℚ → List ℚ)) :
    List ℚ × List ℚ × Option (List ℚ) :=
  let p0 := item.get_closest_pixel_indexes x0 y0
  let p1 := item.get_closest_pixel_indexes x1 y1
  let pc := item.get_closest_pixel_indexes ((x0 + x1) / 2) ((y0 + y1) / 2)
  let iradius := radiusInt (p1.1 - p0.1) (p1.2 - p0.2)
  if iradius = 0 then ([], [], some []) else
  let yc := radavgModel item.data pc.2 pc.1 iradius
  let dydata := dyfunc.map (fun f => f yc.1 yc.2)
  let xdata := (item.get_x_values pc.2 (pc.2 + yc.1.length)).take yc.1.length
  let xdata := match xdata with
    | [] => xdata
    | h :: _ => xdata.map (fun q => q - h)
  (xdata, yc.1, dydata)

/-- A concrete image item for witnesses: `mat5` with trivial pixel-index
and x-value services. -/
def raSource0 : RASource :=
  ⟨mat5, fun x y => (⌊x⌋, ⌊y⌋), fun a b => (List.range (b - a).toNat).map (fun i => (i : ℚ))⟩

/-- Dereference a Python `weakref` cell: `none` if never set, otherwise
the referent if it is still alive (`CrossSectionItem.get_source_image`). -/
def getRef {α : Type} (s : Option (Option α)) : Option α := s.bind id

/-- A marker/shape object as seen by the cross-section code: an identity
(Python object identity, for registry membership), the plot it is
attached to (if any), the rectangular area it exposes (present exactly
when the object has a `get_rect` method), and its point coordinates. -/
structure SObj where
  oid : ℕ
  oplot : Option ℕ
  rect : Option (ℚ × ℚ × ℚ × ℚ)
  pos : ℚ × ℚ
  deriving DecidableEq

/-- Embedding of `get_rectangular_area`: the rectangle covered by the
object, or `none` when the object (a marker, point, ...) has no
`get_rect` method. -/
def get_rectangular_area (obj : SObj) : Option (ℚ × ℚ × ℚ × ℚ) := obj.rect

/-- Embedding of `get_object_coordinates` (`get_pos`, or the marker's
`xValue()/yValue()`). -/
def get_object_coordinates (obj : SObj) : ℚ × ℚ := obj.pos

/-- The state of a radially-averaged cross-section item: the weak source
reference and the curve data last handed to `set_data`. -/
structure RAItem where
  source : Option (Option RASource)
  xdata : List ℚ
  ydata : List ℚ
  dydata : Option (List ℚ)

/-- Embedding of `RACrossSectionItem.update_curve_data`: only objects
exposing a rectangular area produce a radial profile; for any other
object the method falls through and the curve keeps its previous data.
Dereferencing a dead source with a rectangle present is an
`AttributeError` (the source is used unchecked inside
`compute_radial_section`). -/
def RAItem.update_curve_data (it : RAItem) (obj : SObj) : Except PyErr RAItem :=
  let source := getRef it.source
  match get_rectangular_area obj with
  | none => .ok it
  | some (x0, y0, x1, y1) =>
    match source with
    | none => .error .attributeError
    | some src =>
      let s := compute_radial_section src x0 y0 x1 y1 none
      let s' := if s.2.1.length = 0 ∨ s.2.1.all isnanQ then
          (([] : List ℚ), ([] : List ℚ), (none : Option (List ℚ)))
        else s
      .ok { it with xdata := s'.1, ydata := s'.2.1, dydata := s'.2.2 }

/-- A concrete radially-averaged item holding previously displayed data. -/
def raItem0 : RAItem := ⟨some (some raSource0), [0, 1], [13, 9], none⟩

/-! ## Plot-sampling profile extractors

Canvas coordinates are modelled exactly (as rationals); the integer
truncation `QPoint` applies to float coordinates is not modelled — no
settled claim depends on sub-pixel rounding.  The bottom/left axis maps
are affine (`canvas = scale · data + offset`), with the axis-direction
flag of `get_axis_direction` reflected in the sign of the scale. -/

/-- Transform parameters of a `TrImageItem` (`item.get_transform()`):
`(x, y, angle, dx, dy, hflip, vflip)`. -/
structure TrParam where
  x : ℚ
  y : ℚ
  angle : ℚ
  dx : ℚ
  dy : ℚ
  hflip : Bool
  vflip : Bool
  deriving DecidableEq

/-- The plot-item kinds `get_image_data` distinguishes: a plain
`ImageItem`, an `XYImageItem` (an `ImageItem` subclass, excluded), a
`TrImageItem` (an `ImageItem` subclass carrying a transform), or any
non-image item. -/
inductive PItem where
  | plain
  | xy
  | tr (t : TrParam)
  | nonimage
  deriving DecidableEq

/-- The test `isinstance(item, ImageItem) and not isinstance(item, XYImageItem)`. -/
def PItem.eligible : PItem → Bool
  | .plain => true
  | .tr _ => true
  | _ => false

/-- The transform of a `TrImageItem`, none for other items. -/
def PItem.transform : PItem → Option TrParam
  | .tr t => some t
  | _ => none

/-- An image plot as seen by the extractors: the two axis maps, the
canvas extents of the bottom/left axis (`canvasMap(...).p1()/p2()`), the
plot's item list, and the two external `guiqwt.image` services
`get_plot_source_rect` and `get_image_from_plot` as function fields. -/
structure XPlot where
  xscale : ℚ
  xoff : ℚ
  yscale : ℚ
  yoff : ℚ
  cmapX : ℚ × ℚ
  cmapY : ℚ × ℚ
  items : List PItem
  gpsr : (ℚ × ℚ) → (ℚ × ℚ) → ℚ × ℚ × ℚ × ℚ
  gifp : (ℚ × ℚ) → (ℚ × ℚ) → ℚ → ℚ → Bool → Except SampErr (List (List ℚ))

/-- Embedding of `axes_to_canvas`: data coordinates to canvas coordinates. -/
def axes_to_canvas (P : XPlot) (x y : ℚ) : ℚ × ℚ :=
  (P.xscale * x + P.xoff, P.yscale * y + P.yoff)

/-- Embedding of `canvas_to_axes`: canvas coordinates to data coordinates. -/
def canvas_to_axes (P : XPlot) (px py : ℚ) : ℚ × ℚ :=
  ((px - P.xoff) / P.xscale, (py - P.yoff) / P.yscale)

/-- Embedding of the left-axis `get_axis_direction`: the axis is reversed exactly
when increasing data `y` moves down the canvas (positive y scale in this
model, since canvas y grows downward). -/
def axis_dir_left (P : XPlot) : Bool := decide (0 < P.yscale)

/-- Embedding of the bottom-axis `get_axis_direction`: the axis is reversed
exactly when increasing data `x` moves left on the canvas. -/
def axis_dir_bottom (P : XPlot) : Bool := decide (P.xscale < 0)

/-- The two in-place divisions `src_w /= max(dx...)`, `src_h /= max(dy...)`
of `get_image_data`, raising `ZeroDivisionError` like Python float
division. -/
def scaleResolution (trparams : List TrParam) (sw sh : ℚ) : Except PyErr (ℚ × ℚ) :=
  if trparams.isEmpty then .ok (sw, sh)
  else if listMax (trparams.map TrParam.dx) = 0 then .error .zeroDivisionError
  else if listMax (trparams.map TrParam.dy) = 0 then .error .zeroDivisionError
  else .ok (sw / listMax (trparams.map TrParam.dx),
    sh / listMax (trparams.map TrParam.dy))

/-- Embedding of `get_image_data`: filter the eligible image items
(returning `None` — `.ok none` — when there are none), derive the source
rectangle, correct the resolution by the maximal transform scale factors,
and sample through `get_image_from_plot`. -/
def get_image_data (P : XPlot) (p0 p1 : ℚ × ℚ) (apply_lut : Bool) :
    Except PyErr (Option (List (List ℚ))) :=
  let items := P.items.filter PItem.eligible
  if items.isEmpty then .ok none
  else
    let r := P.gpsr p0 p1
    match scaleResolution (items.filterMap PItem.transform) r.2.2.1 r.2.2.2 with
    | .error e => .error e
    | .ok s =>
      match P.gifp p0 p1 s.1 s.2 apply_lut with
      | .error e => .error e.toPyErr
      | .ok m => .ok (some m)

/-- Embedding of `get_plot_x_section`: sample a one-pixel-tall strip over
the visible x-range at the marker's y; `ValueError`/`ZeroDivisionError`
from the sampler produce the empty profile, while a `None` sampler result
(no eligible image) reaches `data.mean(axis=0)` outside the `try` block
and is an `AttributeError`. -/
def get_plot_x_section (P : XPlot) (obj : SObj) (apply_lut : Bool) :
    Except PyErr (List ℚ × List ℚ) :=
  let y0 := (get_object_coordinates obj).2
  let xc0 := P.cmapX.1
  let xc1 := P.cmapX.2
  let yc0 := (axes_to_canvas P 0 y0).2
  let yc1 := if axis_dir_left P then yc0 + 1 else yc0 - 1
  match get_image_data P (xc0, yc0) (xc1, yc1) apply_lut with
  | .error .valueError => .ok ([], [])
  | .error .zeroDivisionError => .ok ([], [])
  | .error e => .error e
  | .ok none => .error .attributeError
  | .ok (some data) =>
    let y := colMeans data
    let x0 := (canvas_to_axes P xc0 yc0).1
    let x1 := (canvas_to_axes P xc1 yc1).1
    .ok (linspace x0 x1 y.length, y)

/-- Embedding of `get_plot_y_section` (the vertical counterpart of
`get_plot_x_section`). -/
def get_plot_y_section (P : XPlot) (obj : SObj) (apply_lut : Bool) :
    Except PyErr (List ℚ × List ℚ) :=
  let x0 := (get_object_coordinates obj).1
  let yc := if axis_dir_left P then (P.cmapY.2, P.cmapY.1) else (P.cmapY.1, P.cmapY.2)
  let xc0 := (axes_to_canvas P x0 0).1
  let xc1 := xc0 + 1
  match get_image_data P (xc0, yc.1) (xc1, yc.2) apply_lut with
  | .error .valueError => .ok ([], [])
  | .error .zeroDivisionError => .ok ([], [])
  | .error e => .error e
  | .ok none => .error .attributeError
  | .ok (some data) =>
    let y := rowMeans data
    let y0 := (canvas_to_axes P xc0 yc.1).2
    let y1 := (canvas_to_axes P xc1 yc.2).2
    .ok (linspace y0 y1 y.length, y)

/-- Embedding of `get_plot_average_x_section`: normalize the canvas
corners of the rectangle `(x0, y0, x1, y1) = obj.get_rect()`, sample,
average over rows, reverse the sampled values when the canvas x-order was
inverted, and span `linspace x0 x1`. -/
def get_plot_average_x_section (P : XPlot) (x0 y0 x1 y1 : ℚ) (apply_lut : Bool) :
    Except PyErr (List ℚ × List ℚ) :=
  let c0 := axes_to_canvas P x0 y0
  let c1 := axes_to_canvas P x1 y1
  let invert := decide (c1.1 < c0.1)
  let xc := if invert then (c1.1, c0.1) else (c0.1, c1.1)
  let ydir := axis_dir_left P
  let yc := if (ydir ∧ c1.2 < c0.2) ∨ (¬ydir ∧ c0.2 < c1.2)
    then (c1.2, c0.2) else (c0.2, c1.2)
  match get_image_data P (xc.1, yc.1) (xc.2, yc.2) apply_lut with
  | .error .valueError => .ok ([], [])
  | .error .zeroDivisionError => .ok ([], [])
  | .error e => .error e
  | .ok none => .error .attributeError
  | .ok (some data) =>
    let y := colMeans data
    let y' := if invert then y.reverse else y
    .ok (linspace x0 x1 y'.length, y')

/-- Embedding of `get_plot_average_y_section` (the vertical counterpart:
the `x` output spans the rectangle's y-extent and is reversed when the
canvas y-order was inverted). -/
def get_plot_average_y_section (P : XPlot) (x0 y0 x1 y1 : ℚ) (apply_lut : Bool) :
    Except PyErr (List ℚ × List ℚ) :=
  let c0 := axes_to_canvas P x0 y0
  let c1 := axes_to_canvas P x1 y1
  let ydir := axis_dir_left P
  let invert := decide ((ydir ∧ c1.2 < c0.2) ∨ (¬ydir ∧ c0.2 < c1.2))
  let yc := if invert then (c1.2, c0.2) else (c0.2, c1.2)
  let xc := if c1.1 < c0.1 then (c1.1, c0.1) else (c0.1, c1.1)
  match get_image_data P (xc.1, yc.1) (xc.2, yc.2) apply_lut with
  | .error .valueError => .ok ([], [])
  | .error .zeroDivisionError => .ok ([], [])
  | .error e => .error e
  | .ok none => .error .attributeError
  | .ok (some data) =>
    let y := rowMeans data
    let x := linspace y0 y1 y.length
    let x' := if invert then x.reverse else x
    .ok (x', y)

/-- A plot whose only item is not an image: the sampler has no source. -/
def plotNoImage : XPlot :=
  { xscale := 1, xoff := 0, yscale := -1, yoff := 100,
    cmapX := (0, 200), cmapY := (0, 100),
    items := [PItem.nonimage],
    gpsr := fun _ _ => (0, 0, 4, 4),
    gifp := fun _ _ _ _ _ => .ok [[1]] }

/-- A plot with one plain image item and a benign sampler. -/
def plotOneImage : XPlot :=
  { xscale := 1, xoff := 0, yscale := -1, yoff := 100,
    cmapX := (0, 200), cmapY := (0, 100),
    items := [PItem.plain],
    gpsr := fun _ _ => (0, 0, 4, 4),
    gifp := fun _ _ _ _ _ => .ok [[1, 2], [3, 4]] }

/-- A plot with one plain image item whose sampler always fails with
`ValueError` (an invalid/degenerate region everywhere). -/
def plotValErr : XPlot :=
  { xscale := 1, xoff := 0, yscale := -1, yoff := 100,
    cmapX := (0, 200), cmapY := (0, 100),
    items := [PItem.plain],
    gpsr := fun _ _ => (0, 0, 4, 4),
    gifp := fun _ _ _ _ _ => .error .valueError }

/-- A concrete point marker attached to a plot. -/
def marker0 : SObj := ⟨1, some 0, none, (5, 5)⟩

/-- A plot with one transformed image (x-scale 2, y-scale 4) whose
sampler echoes the resolution it was asked for. -/
def plotTr : XPlot :=
  { xscale := 1, xoff := 0, yscale := -1, yoff := 100,
    cmapX := (0, 200), cmapY := (0, 100),
    items := [PItem.tr ⟨0, 0, 0, 2, 4, false, false⟩],
    gpsr := fun _ _ => (0, 0, 8, 8),
    gifp := fun _ _ w h _ => .ok [[w, h]] }

/-! ## Axis-direction invariance of the averaged x-section (C2) -/

/-- Modelled from the spec: the grid a RegionSampler extracts (§4.2) for
a data-space image `img` over the canvas rectangle `p0`–`p1` at
resolution `W × H`: rows and columns in canvas order from `p0` to `p1`,
each sample read at the data coordinates of its canvas cell center. -/
def gridSample (P : XPlot) (img : ℚ → ℚ → ℚ) (p0 p1 : ℚ × ℚ) (W H : ℕ) :
    List (List ℚ) :=
  (List.range H).map (fun (r : ℕ) =>
    (List.range W).map (fun (c : ℕ) =>
      img ((p0.1 + (c + 1 / 2) * (p1.1 - p0.1) / W - P.xoff) / P.xscale)
          ((p0.2 + (r + 1 / 2) * (p1.2 - p0.2) / H - P.yoff) / P.yscale)))

/-- Modelled from the spec: a concrete `get_image_from_plot` (§4.2) that
samples the data-space image `img` on a grid of the requested (real)
resolution, rounded up to whole samples. -/
def specSample (P : XPlot) (img : ℚ → ℚ → ℚ) (p0 p1 : ℚ × ℚ) (w h : ℚ)
    (_lut : Bool) : Except SampErr (List (List ℚ)) :=
  .ok (gridSample P img p0 p1 (⌈w⌉.toNat) (⌈h⌉.toNat))

/-- Modelled from the spec: `get_plot_source_rect` (§4.1
`derive_source_rect`): a top-left-origin source-pixel rectangle derived
from two arbitrary canvas corners, independent of click order, with
`ppuX`/`ppuY` source pixels per data unit. -/
def specSourceRect (P : XPlot) (ppuX ppuY : ℚ) (p0 p1 : ℚ × ℚ) :
    ℚ × ℚ × ℚ × ℚ :=
  (min ((p0.1 - P.xoff) / P.xscale) ((p1.1 - P.xoff) / P.xscale),
   min ((p0.2 - P.yoff) / P.yscale) ((p1.2 - P.yoff) / P.yscale),
   ppuX * |(p1.1 - p0.1) / P.xscale|,
   ppuY * |(p1.2 - p0.2) / P.yscale|)

/-- The data-y coordinate of sampled row `r` after the averaged
x-section's canvas-y normalization (a function of the y-axis map only). -/
def avgRowY (ys yo y0 y1 : ℚ) (H : ℕ) (r : ℕ) : ℚ :=
  let c0y := ys * y0 + yo
  let c1y := ys * y1 + yo
  let yc := if (decide (0 < ys) ∧ c1y < c0y) ∨ (¬decide (0 < ys) ∧ c0y < c1y)
    then (c1y, c0y) else (c0y, c1y)
  (yc.1 + (r + 1 / 2) * (yc.2 - yc.1) / H - yo) / ys

/-- The canonical averaged x-section profile: column `c`'s x-coordinate
ascends from `x0` to `x1` in data order and its value is the mean of the
image over the sampled rows at that x — independent of the canvas
x-direction. -/
def avgXCanon (img : ℚ → ℚ → ℚ) (ys yo x0 y0 x1 y1 : ℚ) (W H : ℕ) :
    List ℚ × List ℚ :=
  if H = 0 then ([], [])
  else
    (linspace x0 x1 W,
     (List.range W).map (fun (c : ℕ) =>
       ((List.range H).map (fun (r : ℕ) =>
         img (x0 + (c + 1 / 2) * (x1 - x0) / W) (avgRowY ys yo y0 y1 H r))).sum / H))

/-- A concrete data-space image for witnesses. -/
def imgT : ℚ → ℚ → ℚ := fun x y => x + 2 * y

/-- Scaffold carrying the axis maps of the normal-direction plot. -/
def plotScaf : XPlot :=
  { xscale := 1, xoff := 0, yscale := -1, yoff := 100,
    cmapX := (0, 200), cmapY := (0, 100), items := [PItem.plain],
    gpsr := fun _ _ => (0, 0, 0, 0), gifp := fun _ _ _ _ _ => .ok [] }

/-- The normal-direction plot equipped with the spec-modelled sampler. -/
def plotDirNormal : XPlot :=
  { plotScaf with
    gpsr := specSourceRect plotScaf 2 3,
    gifp := specSample plotScaf imgT }

/-- Scaffold of the same scene with the bottom axis reversed. -/
def plotScafM : XPlot := { plotScaf with xscale := -1, xoff := 7 }

/-- The reversed-direction plot equipped with the spec-modelled sampler. -/
def plotDirReversed : XPlot :=
  { plotScafM with
    gpsr := specSourceRect plotScafM 2 3,
    gifp := specSample plotScafM imgT }

/-! ## Cross-section items and the panel coordinator -/

/-- A floating-point sample value as it flows through the coordinator:
either NaN or an exact number.  (The extractors above never produce NaN
in the exact rational model, but `get_cross_section` values pass through
`numpy` code that can, so the coordinator models them faithfully.) -/
inductive PVal where
  | nan
  | num (q : ℚ)
  deriving DecidableEq, Repr

/-- Embedding of `np.isnan` on a modelled sample value. -/
def PVal.isnan : PVal → Bool
  | .nan => true
  | .num _ => false

/-- State of a `CrossSectionItem` curve: the `_inverted` class flag, the
per-binding flags copied from the panel, visibility, the weak source
reference, whether the item is attached to a (cross-section) plot and
that plot's visibility, and the curve data last handed to `set_data`. -/
structure CSItem where
  inverted : Bool
  perimage_mode : Bool
  autoscale_mode : Bool
  apply_lut : Bool
  visible : Bool
  source : Option (Option ℕ)
  plot : Option ℕ
  plot_visible : Bool
  xdata : List PVal
  ydata : List PVal

/-- Embedding of `CrossSectionItem.update_curve_data`: drop the profile
to two empty arrays when it is empty or all-NaN, then `set_data`, with
the x/y roles swapped for the inverted (vertical) variant. -/
def update_curve_data (it : CSItem) (sect : List PVal × List PVal) : CSItem :=
  let sectx := sect.1
  let secty := sect.2
  let s := if secty.length = 0 ∨ secty.all PVal.isnan then ([], []) else (sectx, secty)
  if it.inverted then { it with xdata := s.2, ydata := s.1 }
  else { it with xdata := s.1, ydata := s.2 }

/-- Embedding of `CrossSectionItem.update_item`: a no-op unless the item
is attached to a plot, the weak source reference is live, and the plot is
visible; otherwise recompute the curve through `gcs` (the subclass's
`get_cross_section`) and emit `SIG_CS_CURVE_CHANGED` (the returned flag).
`update_scale` (run when autoscale is off) only touches the plot's axis
scales, outside this state. -/
def update_item (gcs : SObj → List PVal × List PVal) (it : CSItem) (obj : SObj) :
    CSItem × Bool :=
  match it.plot with
  | none => (it, false)
  | some _ =>
    if getRef it.source = none ∨ it.plot_visible = false then (it, false)
    else (update_curve_data it (gcs obj), true)

/-- A junk default used with `List.getD` on curve lists. -/
def dfltItem : CSItem :=
  ⟨false, false, false, false, false, none, none, false, [], []⟩

/-- A concrete curve item whose weak source reference has expired. -/
def csItemDead : CSItem :=
  ⟨false, true, true, false, true, some none, some 0, true,
   [PVal.num 3], [PVal.num 4]⟩

/-- State of a `CrossSectionPlot` panel: the three panel-wide mode flags,
the weak reference to the last refreshed object, the per-source curve
bindings in dictionary iteration order, the per-plot shape registry, and
the enable-a-marker label's visibility. -/
structure Panel where
  perimage_mode : Bool
  autoscale_mode : Bool
  apply_lut : Bool
  last_obj : Option (Option SObj)
  known_items : List CSItem
  shapes : List (ℕ × List SObj)
  label_visible : Bool

/-- Embedding of `CrossSectionPlot.unregister_shape`: drop the first
occurrence of the shape from the first registry entry holding it. -/
def unregister_shape (l : List (ℕ × List SObj)) (shape : SObj) :
    List (ℕ × List SObj) :=
  match l with
  | [] => []
  | e :: rest =>
    if shape ∈ e.2 then (e.1, e.2.erase shape) :: rest
    else e :: unregister_shape rest shape

/-- Embedding of `CrossSectionPlot.is_shape_known`: membership in any
registry entry. -/
def is_shape_known (st : Panel) (shape : SObj) : Bool :=
  st.shapes.any (fun e => decide (shape ∈ e.2))

/-- Embedding of `CrossSectionPlot.get_last_obj`: dereference the weak
reference to the last refreshed object. -/
def get_last_obj (st : Panel) : Option SObj := getRef st.last_obj

/-- The body of `CrossSectionPlot.update_plot` once a live object is in
hand: an object detached from its plot is unregistered; otherwise the
label ends hidden and each binding, in order, is either hidden (not in
per-image mode and not the first binding) or shown, given the panel-wide
flags, and recomputed via `update_item`.  `do_autoscale`/`replot` touch
only the rendered axes, outside this state. -/
def panel_update_body (gcs : SObj → List PVal × List PVal) (st : Panel)
    (o : SObj) : Panel :=
  if o.oplot = none then { st with shapes := unregister_shape st.shapes o }
  else
    { st with
      label_visible := false,
      known_items := st.known_items.enum.map (fun ic =>
        if ¬st.perimage_mode ∧ 0 < ic.1 then { ic.2 with visible := false }
        else
          (update_item gcs
            { ic.2 with
              visible := true,
              perimage_mode := st.perimage_mode,
              autoscale_mode := st.autoscale_mode,
              apply_lut := st.apply_lut } o).1) }

/-- Embedding of `CrossSectionPlot.update_plot`: with no target, re-use
the last refreshed target if its weak reference is live, else do
nothing; with a target, store a weak reference to it and proceed. -/
def panel_update_plot (gcs : SObj → List PVal × List PVal) (st : Panel)
    (obj? : Option SObj) : Panel :=
  match obj? with
  | none =>
    match get_last_obj st with
    | none => st
    | some o => panel_update_body gcs st o
  | some o => panel_update_body gcs { st with last_obj := some (some o) } o

/-- Embedding of `CrossSectionPlot.shape_changed`: refresh only shapes
present in the registry. -/
def panel_shape_changed (gcs : SObj → List PVal × List PVal) (st : Panel)
    (shape : SObj) : Panel :=
  if is_shape_known st shape then panel_update_plot gcs st (some shape) else st

/-- A concrete panel whose last-refreshed weak reference has expired. -/
def panelExpired : Panel :=
  ⟨true, true, false, some none, [], [(0, [])], true⟩

/-- A concrete two-binding panel with per-image mode disabled. -/
def panel2 : Panel :=
  ⟨false, true, false, none,
   [csItemDead, { dfltItem with visible := true, ydata := [PVal.num 9] }],
   [], false⟩

/-- Filtering a labelled zip of `range W` with a list of values agrees with
filtering over the indices themselves. -/
theorem zip_label_filterMap (d : ℚ) :
    ∀ (W : ℕ) (l : List ℚ) (lab : ℕ → ℕ) (r : ℕ), W ≤ l.length →
      (((List.range W).map lab).zip l).filterMap
          (fun lv => if lv.1 = r then some lv.2 else none)
        = (List.range W).filterMap
          (fun i => if lab i = r then some (l.getD i d) else none)
  | 0, _, _, _, _ => by simp
  | W + 1, [], _, _, h => by simp at h
  | W + 1, x :: xs, lab, r, h => by
    have hW : W ≤ xs.length := by simpa using h
    have ih := zip_label_filterMap d W xs (fun i => lab (i + 1)) r hW
    rw [List.range_succ_eq_map]
    simp only [List.map_cons, List.map_map, List.zip_cons_cons,
      List.filterMap_cons, List.filterMap_map, List.getD_cons_zero]
    have e1 : ((List.map (lab ∘ Nat.succ) (List.range W)).zip xs).filterMap
        (fun lv : ℕ × ℚ => if lv.1 = r then some lv.2 else none)
        = (List.range W).filterMap
          (fun i => if lab (i + 1) = r then some (xs.getD i d) else none) := ih
    have e2 : List.filterMap
        ((fun i => if lab i = r then some ((x :: xs).getD i d) else none) ∘ Nat.succ)
        (List.range W)
        = (List.range W).filterMap
          (fun i => if lab (i + 1) = r then some (xs.getD i d) else none) :=
      List.filterMap_congr fun i _ => by
        simp [Function.comp, Nat.succ_eq_add_one, List.getD_cons_succ]
    rw [e1, e2]

/-- Mapping a row-level operation over a zip of `range H`-indexed rows with
data rows agrees with mapping over the indices themselves. -/
theorem zip_rows_eq (d : List ℚ) :
    ∀ (H : ℕ) (l : List (List ℚ)) (rowf : ℕ → List ℕ) (r : ℕ), H ≤ l.length →
      (((List.range H).map rowf).zip l).map
          (fun rowp => (rowp.1.zip rowp.2).filterMap
            (fun lv => if lv.1 = r then some lv.2 else none))
        = (List.range H).map
          (fun j => ((rowf j).zip (l.getD j d)).filterMap
            (fun lv => if lv.1 = r then some lv.2 else none))
  | 0, _, _, _, _ => by simp
  | H + 1, [], _, _, h => by simp at h
  | H + 1, x :: xs, rowf, r, h => by
    have hH : H ≤ xs.length := by simpa using h
    have ih := zip_rows_eq d H xs (fun j => rowf (j + 1)) r hH
    rw [List.range_succ_eq_map]
    simp only [List.map_cons, List.map_map, List.zip_cons_cons,
      List.getD_cons_zero]
    congr 1

/-- Reading the `i`-th entry of the slice `row[a : a+W]` reads `row[a+i]`. -/
theorem slice_getD (row : List ℚ) (a W i : ℕ) (hi : i < W) :
    ((row.drop a).take W).getD i 0 = row.getD (a + i) 0 := by
  rw [List.getD_eq_getElem?_getD, List.getD_eq_getElem?_getD,
    List.getElem?_take, if_pos hi, List.getElem?_drop]

/-- The `j`-th row of the sub-matrix is the sliced `iy0+j`-th source row. -/
theorem subMat_getD (orig : List (List ℚ)) (ix0 iy0 ix1 iy1 j : ℕ)
    (hj : j < iy1 - iy0) (hy : iy1 ≤ orig.length) :
    (subMat orig ix0 iy0 ix1 iy1).getD j []
      = ((orig.getD (iy0 + j) []).drop ix0).take (ix1 - ix0) := by
  have hjy : iy0 + j < orig.length := by omega
  rw [subMat, List.getD_eq_getElem?_getD, List.getElem?_map, List.getElem?_take,
    if_pos hj, List.getElem?_drop, List.getElem?_eq_getElem hjy,
    List.getD_eq_getElem _ _ hjy]
  rfl

/-- The member-pixel list the Python code selects for shell `r` is the
specification's `shellPixels` list, provided the corner indices lie inside
the (rectangular) array. -/
theorem pick_eq_shellPixels (orig : List (List ℚ)) (w ix0 iy0 ix1 iy1 ixc iyc r : ℕ)
    (hw : ∀ row ∈ orig, row.length = w) (hx : ix1 ≤ w) (hy : iy1 ≤ orig.length) :
    (List.map
        (fun rowp : List ℕ × List ℚ => (rowp.1.zip rowp.2).filterMap
          (fun lv => if lv.1 = r then some lv.2 else none))
        (List.zip
          ((List.range (iy1 - iy0)).map
            (fun j => (List.range (ix1 - ix0)).map
              (fun i => shellLabel ix0 iy0 ixc iyc i j)))
          (subMat orig ix0 iy0 ix1 iy1))).flatten
    = shellPixels orig ix0 iy0 ix1 iy1 ixc iyc r := by
  have hlen : (iy1 - iy0) ≤ (subMat orig ix0 iy0 ix1 iy1).length := by
    simp only [subMat, List.length_map, List.length_take, List.length_drop]
    omega
  rw [zip_rows_eq [] (iy1 - iy0) _ _ _ hlen, shellPixels,
    List.range'_eq_map_range iy0 (iy1 - iy0), List.map_map]
  congr 1
  apply List.map_congr_left
  intro j hj
  rw [List.mem_range] at hj
  rw [subMat_getD orig ix0 iy0 ix1 iy1 j hj hy]
  have hjy : iy0 + j < orig.length := by omega
  have hmem : orig.getD (iy0 + j) [] ∈ orig := by
    rw [List.getD_eq_getElem _ _ hjy]
    exact List.getElem_mem hjy
  have hrowlen : (orig.getD (iy0 + j) []).length = w := hw _ hmem
  have hrow : ix1 - ix0 ≤ (((orig.getD (iy0 + j) []).drop ix0).take (ix1 - ix0)).length := by
    simp only [List.length_take, List.length_drop, hrowlen]
    omega
  rw [zip_label_filterMap 0 (ix1 - ix0) _ _ _ hrow]
  simp only [Function.comp]
  rw [List.range'_eq_map_range, List.filterMap_map]
  apply List.filterMap_congr
  intro i hi
  rw [List.mem_range] at hi
  simp only [Function.comp]
  rw [slice_getD _ _ _ _ hi]
  have harg : shellLabel ix0 iy0 ixc iyc i j
      = rint (((((ix0 + i : ℕ) : ℤ)) - ixc) ^ 2 + ((((iy0 + j : ℕ) : ℤ)) - iyc) ^ 2).toNat := by
    rw [shellLabel]
    have hcast : ((ix0 : ℤ) + i - ixc) ^ 2 + ((iy0 : ℤ) + j - iyc) ^ 2
        = (((ix0 + i : ℕ) : ℤ) - ixc) ^ 2 + (((iy0 + j : ℕ) : ℤ) - iyc) ^ 2 := by
      push_cast
      ring
    rw [hcast]
  rw [harg]

/-- The function `radial_average` agrees with the specification-side radial averager on
in-bounds corners of a rectangular array. -/
theorem radial_average_eq_spec (orig : List (List ℚ))
    (w ix0 iy0 ix1 iy1 ixc iyc iradius : ℕ)
    (hw : ∀ row ∈ orig, row.length = w) (hx : ix1 ≤ w) (hy : iy1 ≤ orig.length) :
    radial_average orig ix0 iy0 ix1 iy1 ixc iyc iradius
      = radialSpec orig ix0 iy0 ix1 iy1 ixc iyc iradius := by
  simp only [radial_average, radialSpec]
  apply List.filterMap_congr
  intro r _
  rw [pick_eq_shellPixels orig w ix0 iy0 ix1 iy1 ixc iyc r hw hx hy]

/-- If `s ≤ x < s + 1` then `⌊(x+1)/2⌋` is the integer `(s+1)/2`. -/
theorem floor_half_succ (x : ℝ) (s : ℕ) (h1 : (s : ℝ) ≤ x) (h2 : x < s + 1) :
    ⌊(x + 1) / 2⌋ = (((s + 1) / 2 : ℕ) : ℤ) := by
  rcases Nat.even_or_odd s with ⟨t, ht⟩ | ⟨t, ht⟩
  · subst ht
    have hn : ((t + t + 1) / 2 : ℕ) = t := by omega
    rw [hn, Int.floor_eq_iff]
    constructor
    · push_cast at h1 ⊢
      linarith
    · push_cast at h2 ⊢
      linarith
  · subst ht
    have hn : ((2 * t + 1 + 1) / 2 : ℕ) = t + 1 := by omega
    rw [hn, Int.floor_eq_iff]
    constructor
    · push_cast at h1 ⊢
      linarith
    · push_cast at h2 ⊢
      linarith

/-- The integer shell index `rint n` is exactly `⌊√n + 1/2⌋`: the rounded
radial distance used by the claim and the code's
`np.floor(np.sqrt(...) + .5)`. -/
theorem rint_eq_floor (n : ℕ) : (rint n : ℤ) = ⌊Real.sqrt n + 1 / 2⌋ := by
  have key : Real.sqrt (4 * (n : ℝ)) = 2 * Real.sqrt n := by
    rw [show (4 : ℝ) * n = 2 ^ 2 * n by ring, Real.sqrt_mul (by positivity),
      Real.sqrt_sq (by norm_num)]
  have hle : ((Nat.sqrt (4 * n) : ℝ)) ^ 2 ≤ 4 * (n : ℝ) := by
    exact_mod_cast Nat.sqrt_le' (4 * n)
  have hlt : 4 * (n : ℝ) < ((Nat.sqrt (4 * n) : ℝ) + 1) ^ 2 := by
    exact_mod_cast Nat.lt_succ_sqrt' (4 * n)
  have h1 : ((Nat.sqrt (4 * n) : ℝ)) ≤ 2 * Real.sqrt n := by
    rw [← key]
    calc ((Nat.sqrt (4 * n) : ℝ))
        = Real.sqrt (((Nat.sqrt (4 * n) : ℝ)) ^ 2) := (Real.sqrt_sq (by positivity)).symm
      _ ≤ Real.sqrt (4 * (n : ℝ)) := Real.sqrt_le_sqrt hle
  have h2 : 2 * Real.sqrt n < ((Nat.sqrt (4 * n) : ℝ)) + 1 := by
    rw [← key]
    calc Real.sqrt (4 * (n : ℝ))
        < Real.sqrt (((Nat.sqrt (4 * n) : ℝ) + 1) ^ 2) :=
          Real.sqrt_lt_sqrt (by positivity) hlt
      _ = (Nat.sqrt (4 * n) : ℝ) + 1 := Real.sqrt_sq (by positivity)
  have hfl := floor_half_succ (2 * Real.sqrt n) (Nat.sqrt (4 * n)) h1 h2
  rw [show Real.sqrt n + 1 / 2 = (2 * Real.sqrt n + 1) / 2 by ring, rint]
  exact hfl.symm

/-- The integer radius of `compute_radial_section` is exactly the
specification's `⌊0.5·√(0.5·dx² + 0.5·dy²) + 0.5⌋`. -/
theorem radiusInt_eq_floor (dx dy : ℤ) :
    (radiusInt dx dy : ℤ)
      = ⌊(1 / 2 : ℝ) * Real.sqrt ((1 / 2) * (dx : ℝ) ^ 2 + (1 / 2) * (dy : ℝ) ^ 2) + 1 / 2⌋ := by
  set m := (dx ^ 2 + dy ^ 2).toNat with hm
  have hm' : (m : ℝ) = (dx : ℝ) ^ 2 + (dy : ℝ) ^ 2 := by
    have h0 : ((dx ^ 2 + dy ^ 2).toNat : ℤ) = dx ^ 2 + dy ^ 2 :=
      Int.toNat_of_nonneg (by positivity)
    rw [hm]
    exact_mod_cast h0
  set k := m / 2 with hk
  set s := Nat.sqrt k with hs
  have hks : ((s : ℝ)) ^ 2 ≤ (m : ℝ) / 2 := by
    have ha : (s ^ 2 : ℕ) ≤ k := Nat.sqrt_le' k
    have hb : (k : ℝ) ≤ (m : ℝ) / 2 := by
      rw [hk]
      exact_mod_cast Nat.cast_div_le
    calc ((s : ℝ)) ^ 2 = ((s ^ 2 : ℕ) : ℝ) := by push_cast; ring
      _ ≤ (k : ℝ) := by exact_mod_cast ha
      _ ≤ (m : ℝ) / 2 := hb
  have hlt : (m : ℝ) / 2 < ((s : ℝ) + 1) ^ 2 := by
    have ha : k < (s + 1) ^ 2 := by
      rw [hs]
      exact_mod_cast Nat.lt_succ_sqrt' k
    have hb : m ≤ 2 * k + 1 := by omega
    have hb' : (m : ℝ) ≤ 2 * (k : ℝ) + 1 := by exact_mod_cast hb
    have hc : ((k : ℝ) + 1) ≤ ((s : ℝ) + 1) ^ 2 := by exact_mod_cast ha
    nlinarith
  have h1 : (s : ℝ) ≤ Real.sqrt ((m : ℝ) / 2) := by
    calc (s : ℝ) = Real.sqrt (((s : ℝ)) ^ 2) := (Real.sqrt_sq (by positivity)).symm
      _ ≤ Real.sqrt ((m : ℝ) / 2) := Real.sqrt_le_sqrt hks
  have h2 : Real.sqrt ((m : ℝ) / 2) < (s : ℝ) + 1 := by
    calc Real.sqrt ((m : ℝ) / 2)
        < Real.sqrt (((s : ℝ) + 1) ^ 2) := Real.sqrt_lt_sqrt (by positivity) hlt
      _ = (s : ℝ) + 1 := Real.sqrt_sq (by positivity)
  have hfl := floor_half_succ (Real.sqrt ((m : ℝ) / 2)) s h1 h2
  have hexpr : (1 / 2 : ℝ) * Real.sqrt ((1 / 2) * (dx : ℝ) ^ 2 + (1 / 2) * (dy : ℝ) ^ 2) + 1 / 2
      = (Real.sqrt ((m : ℝ) / 2) + 1) / 2 := by
    rw [show (1 / 2 : ℝ) * (dx : ℝ) ^ 2 + (1 / 2) * (dy : ℝ) ^ 2 = (m : ℝ) / 2 by
      rw [hm']; ring]
    ring
  rw [hexpr]
  have hr : radiusInt dx dy = (s + 1) / 2 := rfl
  rw [hr]
  exact hfl.symm

/-- C3: over the rectangular sub-array bounded by the two corners, the
radial averager assigns pixel `(px, py)` to shell `r` exactly when
`⌊√((px-cx)² + (py-cy)²) + 1/2⌋ = r` (the integer shell index `rint` is
exactly that floor), each output value is the arithmetic mean of the
shell's member pixels, and empty shells are omitted, so the output has at
most `radius + 1` entries. -/
theorem radial_average_is_shell_means :
    (∀ n : ℕ, (rint n : ℤ) = ⌊Real.sqrt n + 1 / 2⌋) ∧
    ∀ (orig : List (List ℚ)) (w ix0 iy0 ix1 iy1 ixc iyc iradius : ℕ),
      (∀ row ∈ orig, row.length = w) → ix1 ≤ w → iy1 ≤ orig.length →
      radial_average orig ix0 iy0 ix1 iy1 ixc iyc iradius
          = radialSpec orig ix0 iy0 ix1 iy1 ixc iyc iradius
        ∧ (radial_average orig ix0 iy0 ix1 iy1 ixc iyc iradius).length ≤ iradius + 1 := by
  refine ⟨rint_eq_floor, fun orig w ix0 iy0 ix1 iy1 ixc iyc iradius hw hx hy => ⟨?_, ?_⟩⟩
  · exact radial_average_eq_spec orig w ix0 iy0 ix1 iy1 ixc iyc iradius hw hx hy
  · simp only [radial_average]
    exact le_trans (List.length_filterMap_le _ _) (by simp)

/-- Witness for C3 at a concrete matrix, corners, center and radius. -/
theorem radial_average_is_shell_means_witness :
    (∀ row ∈ mat5, row.length = 5) ∧
    radial_average mat5 1 0 4 3 2 1 2 = radialSpec mat5 1 0 4 3 2 1 2 :=
  ⟨by decide,
    (radial_average_is_shell_means.2 mat5 5 1 0 4 3 2 1 2
      (by decide) (by decide) (by decide)).1⟩

/-- C4: `compute_radial_section` uses the integer radius
`⌊0.5·√(0.5·dx² + 0.5·dy²) + 0.5⌋` of the corner pixel-index deltas
(`radiusInt` is exactly that floor), and returns an empty profile
(zero-length arrays) whenever that radius is zero. -/
theorem compute_radial_section_zero_radius :
    (∀ dx dy : ℤ, (radiusInt dx dy : ℤ)
        = ⌊(1 / 2 : ℝ) * Real.sqrt ((1 / 2) * (dx : ℝ) ^ 2 + (1 / 2) * (dy : ℝ) ^ 2) + 1 / 2⌋) ∧
    ∀ (item : RASource) (x0 y0 x1 y1 : ℚ)
      (dyfunc : Option (List ℚ → List ℚ → List ℚ)),
      radiusInt ((item.get_closest_pixel_indexes x1 y1).1
            - (item.get_closest_pixel_indexes x0 y0).1)
          ((item.get_closest_pixel_indexes x1 y1).2
            - (item.get_closest_pixel_indexes x0 y0).2) = 0 →
      compute_radial_section item x0 y0 x1 y1 dyfunc = ([], [], some []) := by
  refine ⟨radiusInt_eq_floor, fun item x0 y0 x1 y1 dyfunc h0 => ?_⟩
  simp only [compute_radial_section]
  rw [if_pos h0]

/-- Witness for C4: a degenerate region whose corner pixels coincide. -/
theorem compute_radial_section_zero_radius_witness :
    radiusInt ((raSource0.get_closest_pixel_indexes 3 1).1
          - (raSource0.get_closest_pixel_indexes 3 1).1)
        ((raSource0.get_closest_pixel_indexes 3 1).2
          - (raSource0.get_closest_pixel_indexes 3 1).2) = 0 ∧
    compute_radial_section raSource0 3 1 3 1 none = ([], [], some []) :=
  ⟨by decide,
    compute_radial_section_zero_radius.2 raSource0 3 1 3 1 none (by decide)⟩

/-- C10: for an object exposing no rectangular area (a point marker), the
radially-averaged item's `update_curve_data` leaves the curve data
completely unchanged and raises nothing. -/
theorem ra_update_curve_data_point_noop (it : RAItem) (obj : SObj)
    (h : get_rectangular_area obj = none) :
    it.update_curve_data obj = .ok it := by
  simp only [RAItem.update_curve_data, h]

/-- Witness for C10: a point marker (no `get_rect`) leaves `raItem0`
untouched. -/
theorem ra_update_curve_data_point_noop_witness :
    get_rectangular_area ⟨7, some 1, none, (2, 3)⟩ = none ∧
    RAItem.update_curve_data raItem0 ⟨7, some 1, none, (2, 3)⟩ = .ok raItem0 :=
  ⟨rfl, ra_update_curve_data_point_noop raItem0 ⟨7, some 1, none, (2, 3)⟩ rfl⟩

/-- With no eligible image item, `get_image_data` returns Python `None`. -/
theorem get_image_data_none (P : XPlot) (p0 p1 : ℚ × ℚ) (lut : Bool)
    (h : (P.items.filter PItem.eligible).isEmpty = true) :
    get_image_data P p0 p1 lut = .ok none := by
  simp [get_image_data, h]

/-- With at least one eligible image item, `get_image_data` either raises
`ValueError` or `ZeroDivisionError`, or returns an image. -/
theorem get_image_data_cases (P : XPlot) (p0 p1 : ℚ × ℚ) (lut : Bool)
    (h : (P.items.filter PItem.eligible).isEmpty = false) :
    get_image_data P p0 p1 lut = .error .valueError
    ∨ get_image_data P p0 p1 lut = .error .zeroDivisionError
    ∨ ∃ m, get_image_data P p0 p1 lut = .ok (some m) := by
  simp only [get_image_data, h, Bool.false_eq_true, if_false]
  rcases hsc : scaleResolution
      ((P.items.filter PItem.eligible).filterMap PItem.transform)
      (P.gpsr p0 p1).2.2.1 (P.gpsr p0 p1).2.2.2 with e | s
  · have he : e = .zeroDivisionError := by
      rw [scaleResolution] at hsc
      split at hsc
      · exact absurd hsc (by simp)
      · split at hsc
        · simpa using hsc.symm
        · split at hsc
          · simpa using hsc.symm
          · exact absurd hsc (by simp)
    right; left
    simp [hsc, he]
  · rcases hg : P.gifp p0 p1 s.1 s.2 lut with e | m
    · rcases e with _ | _
      · left
        simp [hg, SampErr.toPyErr]
      · right; left
        simp [hg, SampErr.toPyErr]
    · right; right
      exact ⟨m, by simp [hg]⟩

/-- With no eligible image item, every extractor's sampling match ends in
`AttributeError` (`None` has no `mean`). -/
theorem match_sampler_none (P : XPlot) (p0 p1 : ℚ × ℚ) (lut : Bool)
    (h : (P.items.filter PItem.eligible).isEmpty = true)
    (k : List (List ℚ) → List ℚ × List ℚ) :
    (match get_image_data P p0 p1 lut with
      | .error .valueError => Except.ok (([] : List ℚ), ([] : List ℚ))
      | .error .zeroDivisionError => .ok ([], [])
      | .error e => .error e
      | .ok none => .error .attributeError
      | .ok (some data) => .ok (k data)) = Except.error PyErr.attributeError := by
  rw [get_image_data_none P p0 p1 lut h]

/-- With at least one eligible image item, every extractor's sampling
match produces a profile: the two sampler exception kinds are converted
to the empty profile and an image is post-processed. -/
theorem match_sampler_ok (P : XPlot) (p0 p1 : ℚ × ℚ) (lut : Bool)
    (h : (P.items.filter PItem.eligible).isEmpty = false)
    (k : List (List ℚ) → List ℚ × List ℚ) :
    ∃ p, (match get_image_data P p0 p1 lut with
      | .error .valueError => Except.ok (([] : List ℚ), ([] : List ℚ))
      | .error .zeroDivisionError => .ok ([], [])
      | .error e => .error e
      | .ok none => .error .attributeError
      | .ok (some data) => .ok (k data)) = Except.ok p := by
  rcases get_image_data_cases P p0 p1 lut h with hv | hz | ⟨m, hm⟩
  · exact ⟨([], []), by rw [hv]⟩
  · exact ⟨([], []), by rw [hz]⟩
  · exact ⟨k m, by rw [hm]⟩

/-- When the sampling layer fails with `ValueError` or
`ZeroDivisionError`, every extractor's sampling match converts the
failure into the empty profile: two zero-length arrays. -/
theorem match_sampler_error (P : XPlot) (p0 p1 : ℚ × ℚ) (lut : Bool)
    (h : get_image_data P p0 p1 lut = .error .valueError
      ∨ get_image_data P p0 p1 lut = .error .zeroDivisionError)
    (k : List (List ℚ) → List ℚ × List ℚ) :
    (match get_image_data P p0 p1 lut with
      | .error .valueError => Except.ok (([] : List ℚ), ([] : List ℚ))
      | .error .zeroDivisionError => .ok ([], [])
      | .error e => .error e
      | .ok none => .error .attributeError
      | .ok (some data) => .ok (k data)) = Except.ok ([], []) := by
  rcases h with h | h
  · rw [h]
  · rw [h]

/-- C1 (amended): each of the four plot-sampling extractors converts a
sampler `ValueError` (invalid/degenerate region) or `ZeroDivisionError`
(transform-resolution scaling) into the empty profile — two zero-length
arrays — and otherwise returns a profile; but when no eligible image
source exists the sampler's `None` result is used unchecked and the
extractor raises an `AttributeError` past its boundary instead of
returning an empty profile. -/
theorem plot_sections_error_boundary :
    ∀ (P : XPlot) (obj : SObj) (x0 y0 x1 y1 : ℚ) (lut : Bool),
      ((P.items.filter PItem.eligible).isEmpty = true →
        get_plot_x_section P obj lut = .error .attributeError
        ∧ get_plot_y_section P obj lut = .error .attributeError
        ∧ get_plot_average_x_section P x0 y0 x1 y1 lut = .error .attributeError
        ∧ get_plot_average_y_section P x0 y0 x1 y1 lut = .error .attributeError)
      ∧ ((P.items.filter PItem.eligible).isEmpty = false →
        (∃ p, get_plot_x_section P obj lut = .ok p)
        ∧ (∃ p, get_plot_y_section P obj lut = .ok p)
        ∧ (∃ p, get_plot_average_x_section P x0 y0 x1 y1 lut = .ok p)
        ∧ (∃ p, get_plot_average_y_section P x0 y0 x1 y1 lut = .ok p))
      ∧ ((∀ p0 p1 : ℚ × ℚ, get_image_data P p0 p1 lut = .error .valueError
            ∨ get_image_data P p0 p1 lut = .error .zeroDivisionError) →
        get_plot_x_section P obj lut = .ok ([], [])
        ∧ get_plot_y_section P obj lut = .ok ([], [])
        ∧ get_plot_average_x_section P x0 y0 x1 y1 lut = .ok ([], [])
        ∧ get_plot_average_y_section P x0 y0 x1 y1 lut = .ok ([], [])) := by
  intro P obj x0 y0 x1 y1 lut
  refine ⟨?_, ?_, ?_⟩
  · intro hemp
    exact ⟨match_sampler_none P _ _ lut hemp _, match_sampler_none P _ _ lut hemp _,
      match_sampler_none P _ _ lut hemp _, match_sampler_none P _ _ lut hemp _⟩
  · intro hne
    exact ⟨match_sampler_ok P _ _ lut hne _, match_sampler_ok P _ _ lut hne _,
      match_sampler_ok P _ _ lut hne _, match_sampler_ok P _ _ lut hne _⟩
  · intro hfail
    exact ⟨match_sampler_error P _ _ lut (hfail _ _) _,
      match_sampler_error P _ _ lut (hfail _ _) _,
      match_sampler_error P _ _ lut (hfail _ _) _,
      match_sampler_error P _ _ lut (hfail _ _) _⟩

/-- Counterexample to C1 as stated: on a plot with no eligible image
source, `get_plot_x_section` raises `AttributeError` past its boundary
instead of returning an empty profile. -/
theorem plot_x_section_no_source_raises :
    get_plot_x_section plotNoImage marker0 false = .error .attributeError := rfl

/-- Witness for the amended C1: at a plot with an image item the
extractor produces a profile, and at a plot whose sampler fails with
`ValueError` everywhere it produces the empty profile. -/
theorem plot_sections_error_boundary_witness :
    (plotOneImage.items.filter PItem.eligible).isEmpty = false
    ∧ (∃ p, get_plot_x_section plotOneImage marker0 false = .ok p)
    ∧ (∀ p0 p1 : ℚ × ℚ, get_image_data plotValErr p0 p1 false = .error .valueError
        ∨ get_image_data plotValErr p0 p1 false = .error .zeroDivisionError)
    ∧ get_plot_x_section plotValErr marker0 false = .ok ([], []) :=
  ⟨by decide,
    ((plot_sections_error_boundary plotOneImage marker0 0 0 1 1 false).2.1 (by decide)).1,
    fun _ _ => Or.inl rfl,
    ((plot_sections_error_boundary plotValErr marker0 0 0 1 1 false).2.2
      (fun _ _ => Or.inl rfl)).1⟩

/-- C9: when the plot holds transformed image items, `get_image_data`
extracts the image at the resolution obtained by dividing the source
rectangle's width by the maximum x-scale factor and its height by the
maximum y-scale factor over all transforms present. -/
theorem get_image_data_transform_scaling (P : XPlot) (p0 p1 : ℚ × ℚ) (lut : Bool)
    (m : List (List ℚ))
    (hI : (P.items.filter PItem.eligible).isEmpty = false)
    (htr : (((P.items.filter PItem.eligible).filterMap PItem.transform)).isEmpty = false)
    (hdx : listMax ((((P.items.filter PItem.eligible).filterMap PItem.transform)).map TrParam.dx) ≠ 0)
    (hdy : listMax ((((P.items.filter PItem.eligible).filterMap PItem.transform)).map TrParam.dy) ≠ 0)
    (hg : P.gifp p0 p1
        ((P.gpsr p0 p1).2.2.1
          / listMax ((((P.items.filter PItem.eligible).filterMap PItem.transform)).map TrParam.dx))
        ((P.gpsr p0 p1).2.2.2
          / listMax ((((P.items.filter PItem.eligible).filterMap PItem.transform)).map TrParam.dy))
        lut = .ok m) :
    get_image_data P p0 p1 lut = .ok (some m) := by
  simp [get_image_data, scaleResolution, hI, htr, hdx, hdy, hg]

/-- Witness for C9: the echoed resolution is `8/2 × 8/4`. -/
theorem get_image_data_transform_scaling_witness :
    (plotTr.items.filter PItem.eligible).isEmpty = false ∧
    get_image_data plotTr (0, 0) (1, 1) false = .ok (some [[8 / 2, 8 / 4]]) :=
  ⟨by decide,
    get_image_data_transform_scaling plotTr (0, 0) (1, 1) false [[8 / 2, 8 / 4]]
      (by decide) (by decide) (by decide) (by decide) rfl⟩

/-- Reading entry `c < W` of a mapped `range`. -/
theorem getD_map_range (f : ℕ → ℚ) (W c : ℕ) (hc : c < W) :
    ((List.range W).map f).getD c 0 = f c := by
  rw [List.getD_eq_getElem?_getD, List.getElem?_map, List.getElem?_range hc]
  rfl

/-- Column means of a `W × H` generated grid. -/
theorem colMeans_grid (f : ℕ → ℕ → ℚ) (W H : ℕ) (hH : H ≠ 0) :
    colMeans ((List.range H).map (fun r => (List.range W).map (fun c => f r c)))
      = (List.range W).map (fun c =>
          ((List.range H).map (fun r => f r c)).sum / H) := by
  obtain ⟨h, rfl⟩ : ∃ h, H = h + 1 := ⟨H - 1, by omega⟩
  conv_lhs => rw [List.range_succ_eq_map, List.map_cons]
  rw [colMeans]
  simp only [List.length_map, List.length_range]
  apply List.map_congr_left
  intro c hc
  rw [List.mem_range] at hc
  have hlist : (((List.range W).map (fun c => f 0 c)) ::
        ((List.range h).map Nat.succ).map (fun r => (List.range W).map (fun c => f r c))).map
          (fun row => row.getD c 0)
      = (List.range (h + 1)).map (fun r => f r c) := by
    conv_rhs => rw [List.range_succ_eq_map]
    rw [List.map_cons, List.map_map, List.map_cons, List.map_map]
    congr 1
    · exact getD_map_range _ W c hc
    · rw [List.map_map]
      apply List.map_congr_left
      intro r _
      simp only [Function.comp]
      exact getD_map_range _ W c hc
  rw [hlist]
  simp

/-- Reversing a mapped `range` reindexes it from the far end. -/
theorem reverse_map_range {α : Type} (W : ℕ) (f : ℕ → α) :
    ((List.range W).map f).reverse = (List.range W).map (fun c => f (W - 1 - c)) := by
  apply List.ext_getElem
  · simp
  · intro i h1 h2
    simp only [List.length_reverse, List.length_map, List.length_range] at h1 h2
    rw [List.getElem_reverse]
    simp only [List.getElem_map, List.getElem_range, List.length_map,
      List.length_range]

/-- The samples of `linspace` ascend when its endpoints do. -/
theorem linspace_sorted (a b : ℚ) (n : ℕ) (hab : a ≤ b) :
    (linspace a b n).Sorted (· ≤ ·) := by
  rw [linspace]
  split
  · rw [List.Sorted, List.pairwise_map]
    exact (List.pairwise_lt_range n).imp (fun _ => le_refl a)
  · rename_i hn
    rw [List.Sorted, List.pairwise_map]
    refine (List.pairwise_lt_range n).imp ?_
    intro i j hij
    have hn1 : (0 : ℚ) < (n : ℚ) - 1 := by
      have h2 : 2 ≤ n := by omega
      have h2' : (2 : ℚ) ≤ (n : ℚ) := by exact_mod_cast h2
      linarith
    have hij' : (i : ℚ) ≤ (j : ℚ) := by exact_mod_cast le_of_lt hij
    have hstep : (b - a) * i / ((n : ℚ) - 1) ≤ (b - a) * j / ((n : ℚ) - 1) :=
      (div_le_div_iff_of_pos_right hn1).mpr
        (mul_le_mul_of_nonneg_left hij' (by linarith))
    linarith

/-- Computing `get_image_data` under the spec-modelled sampler: the grid over the
requested canvas rectangle at the source-rect resolution. -/
theorem get_image_data_grid (P : XPlot) (img : ℚ → ℚ → ℚ) (ppuX ppuY : ℚ)
    (p0 p1 : ℚ × ℚ) (lut : Bool)
    (hI : (P.items.filter PItem.eligible).isEmpty = false)
    (htr : (P.items.filter PItem.eligible).filterMap PItem.transform = [])
    (hg : P.gpsr = specSourceRect P ppuX ppuY)
    (hs : P.gifp = specSample P img) :
    get_image_data P p0 p1 lut
      = .ok (some (gridSample P img p0 p1
          (⌈ppuX * |(p1.1 - p0.1) / P.xscale|⌉.toNat)
          (⌈ppuY * |(p1.2 - p0.2) / P.yscale|⌉.toNat))) := by
  simp [get_image_data, scaleResolution, hI, htr, hg, hs, specSample,
    specSourceRect]

/-- Column `c`'s sampled data-x coordinate, canvas order agreeing with
data order. -/
theorem colcoord_noinv (a b : ℚ) (ha : a ≠ 0) (x0 x1 : ℚ) (W c : ℕ) (hc : c < W) :
    (a * x0 + b + ((c : ℚ) + 1 / 2) * (a * x1 + b - (a * x0 + b)) / (W : ℚ) - b) / a
      = x0 + ((c : ℚ) + 1 / 2) * (x1 - x0) / (W : ℚ) := by
  have hW : (W : ℚ) ≠ 0 := Nat.cast_ne_zero.mpr (by omega)
  field_simp
  ring

/-- Column `c`'s sampled data-x coordinate after reversal, canvas order
opposite to data order. -/
theorem colcoord_inv (a b : ℚ) (ha : a ≠ 0) (x0 x1 : ℚ) (W c : ℕ) (hc : c < W) :
    (a * x1 + b + (((W - 1 - c : ℕ) : ℚ) + 1 / 2) * (a * x0 + b - (a * x1 + b)) / (W : ℚ) - b) / a
      = x0 + ((c : ℚ) + 1 / 2) * (x1 - x0) / (W : ℚ) := by
  have hW : (W : ℚ) ≠ 0 := Nat.cast_ne_zero.mpr (by omega)
  have hcast : ((W - 1 - c : ℕ) : ℚ) = (W : ℚ) - 1 - c := by
    have h1 : (W - 1 - c : ℕ) = W - (c + 1) := by omega
    rw [h1, Nat.cast_sub (by omega)]
    push_cast
    ring
  rw [hcast]
  field_simp
  ring

theorem avgx_canonical (P : XPlot) (img : ℚ → ℚ → ℚ) (ppuX ppuY : ℚ)
    (hxs : P.xscale ≠ 0) (hys : P.yscale ≠ 0)
    (hI : (P.items.filter PItem.eligible).isEmpty = false)
    (htr : (P.items.filter PItem.eligible).filterMap PItem.transform = [])
    (hg : P.gpsr = specSourceRect P ppuX ppuY)
    (hs : P.gifp = specSample P img)
    (x0 y0 x1 y1 : ℚ) (lut : Bool) :
    get_plot_average_x_section P x0 y0 x1 y1 lut
      = .ok (avgXCanon img P.yscale P.yoff x0 y0 x1 y1
          (⌈ppuX * |x1 - x0|⌉.toNat) (⌈ppuY * |y1 - y0|⌉.toNat)) := by
  simp only [get_plot_average_x_section, axes_to_canvas, axis_dir_left]
  rw [get_image_data_grid P img ppuX ppuY _ _ lut hI htr hg hs]
  show Except.ok _ = _
  simp only [avgXCanon, avgRowY]
  by_cases hyc : (decide (0 < P.yscale) = true
        ∧ P.yscale * y1 + P.yoff < P.yscale * y0 + P.yoff)
      ∨ (¬decide (0 < P.yscale) = true
        ∧ P.yscale * y0 + P.yoff < P.yscale * y1 + P.yoff)
  all_goals
    first
      | rw [if_pos hyc]
      | rw [if_neg hyc]
  all_goals
    by_cases hinv : P.xscale * x1 + P.xoff < P.xscale * x0 + P.xoff <;>
      simp only [hinv, if_true, if_false, decide_eq_true_eq, eq_self_iff_true]
  all_goals
    first
      | rw [show (P.xscale * x0 + P.xoff - (P.xscale * x1 + P.xoff)) / P.xscale = x0 - x1
            from by rw [div_eq_iff hxs]; ring, abs_sub_comm x0 x1]
      | rw [show (P.xscale * x1 + P.xoff - (P.xscale * x0 + P.xoff)) / P.xscale = x1 - x0
            from by rw [div_eq_iff hxs]; ring]
  all_goals
    first
      | rw [show (P.yscale * y0 + P.yoff - (P.yscale * y1 + P.yoff)) / P.yscale = y0 - y1
            from by rw [div_eq_iff hys]; ring, abs_sub_comm y0 y1]
      | rw [show (P.yscale * y1 + P.yoff - (P.yscale * y0 + P.yoff)) / P.yscale = y1 - y0
            from by rw [div_eq_iff hys]; ring]
  all_goals by_cases hH : ⌈ppuY * |y1 - y0|⌉.toNat = 0
  all_goals
    first
      | (rw [hH]; simp [gridSample, colMeans, linspace])
      | (rw [if_neg hH, gridSample, colMeans_grid _ _ _ hH]
         first
           | rw [reverse_map_range]
           | skip
         simp only [List.length_map, List.length_range, List.length_reverse]
         refine congrArg _ (congrArg _ ?_)
         apply List.map_congr_left
         intro c hc
         rw [List.mem_range] at hc
         first
           | rw [colcoord_inv P.xscale P.xoff hxs x0 x1 _ c hc]
           | rw [colcoord_noinv P.xscale P.xoff hxs x0 x1 _ c hc])

/-- C2: under the spec-modelled sampler, the rectangle-averaged x-section
output of `get_plot_average_x_section` has a monotonically ascending
x-array for every rectangle given in ascending data order; and a plot `Q`
showing the same physical scene as `P` but with the opposite bottom-axis
direction (mirrored x map) produces identical output for the identical
physical region — the canvas-order reversal is corrected. -/
theorem avg_x_section_ascending_and_direction_invariant :
    ∀ (P Q : XPlot) (img : ℚ → ℚ → ℚ) (ppuX ppuY : ℚ) (x0 y0 x1 y1 : ℚ)
      (lut : Bool),
      P.xscale ≠ 0 → P.yscale ≠ 0 →
      (P.items.filter PItem.eligible).isEmpty = false →
      (P.items.filter PItem.eligible).filterMap PItem.transform = [] →
      P.gpsr = specSourceRect P ppuX ppuY →
      P.gifp = specSample P img →
      Q.xscale = -P.xscale → Q.yscale = P.yscale → Q.yoff = P.yoff →
      Q.items = P.items →
      Q.gpsr = specSourceRect Q ppuX ppuY →
      Q.gifp = specSample Q img →
      axis_dir_bottom Q = !axis_dir_bottom P
      ∧ (∀ xs ys, get_plot_average_x_section P x0 y0 x1 y1 lut = .ok (xs, ys) →
          x0 ≤ x1 → xs.Sorted (· ≤ ·))
      ∧ get_plot_average_x_section Q x0 y0 x1 y1 lut
          = get_plot_average_x_section P x0 y0 x1 y1 lut := by
  intro P Q img ppuX ppuY x0 y0 x1 y1 lut hPx hPy hI htr hg hs hQxs hQys hQyoff
    hQitems hQg hQs
  have hQx : Q.xscale ≠ 0 := by
    rw [hQxs]
    exact neg_ne_zero.mpr hPx
  have hQy : Q.yscale ≠ 0 := by
    rw [hQys]
    exact hPy
  have hcanP := avgx_canonical P img ppuX ppuY hPx hPy hI htr hg hs x0 y0 x1 y1 lut
  have hcanQ := avgx_canonical Q img ppuX ppuY hQx hQy
    (by rw [hQitems]; exact hI) (by rw [hQitems]; exact htr) hQg hQs x0 y0 x1 y1 lut
  refine ⟨?_, ?_, ?_⟩
  · rcases lt_or_gt_of_ne hPx with h | h
    · simp [axis_dir_bottom, hQxs, neg_lt_zero, h, show ¬0 < P.xscale by linarith]
    · simp [axis_dir_bottom, hQxs, neg_lt_zero, h, show ¬P.xscale < 0 by linarith]
  · intro xs ys hok hle
    have h2 : avgXCanon img P.yscale P.yoff x0 y0 x1 y1
        (⌈ppuX * |x1 - x0|⌉.toNat) (⌈ppuY * |y1 - y0|⌉.toNat) = (xs, ys) :=
      Except.ok.inj (hcanP.symm.trans hok)
    have hxs2 : xs = (avgXCanon img P.yscale P.yoff x0 y0 x1 y1
        (⌈ppuX * |x1 - x0|⌉.toNat) (⌈ppuY * |y1 - y0|⌉.toNat)).1 := by
      rw [h2]
    rw [hxs2, avgXCanon]
    split
    · exact List.sorted_nil
    · exact linspace_sorted x0 x1 _ hle
  · rw [hcanP, hcanQ, hQys, hQyoff]

/-- Witness for C2: the two concrete plots differ only in bottom-axis
direction and agree on the averaged x-section of the same rectangle. -/
theorem avg_x_section_direction_invariant_witness :
    plotDirNormal.xscale ≠ 0 ∧ plotDirReversed.xscale = -plotDirNormal.xscale ∧
    get_plot_average_x_section plotDirReversed 1 2 3 4 false
      = get_plot_average_x_section plotDirNormal 1 2 3 4 false :=
  ⟨by decide, rfl,
    (avg_x_section_ascending_and_direction_invariant plotDirNormal plotDirReversed
      imgT 2 3 1 2 3 4 false (by decide) (by decide) (by decide) rfl rfl rfl rfl
      rfl rfl rfl rfl rfl).2.2⟩

/-- C5: after `update_curve_data`, an empty or all-NaN extracted profile
leaves the curve with two zero-length arrays; otherwise the curve holds
the profile as extracted, with x and y swapped exactly when the item is
the inverted (vertical-axis) variant. -/
theorem update_curve_data_fallback (it : CSItem) (sectx secty : List PVal) :
    ((secty = [] ∨ ∀ v ∈ secty, PVal.isnan v = true) →
      (update_curve_data it (sectx, secty)).xdata = []
      ∧ (update_curve_data it (sectx, secty)).ydata = [])
    ∧ ((secty ≠ [] ∧ ¬∀ v ∈ secty, PVal.isnan v = true) →
      (update_curve_data it (sectx, secty)).xdata
          = (if it.inverted then secty else sectx)
      ∧ (update_curve_data it (sectx, secty)).ydata
          = (if it.inverted then sectx else secty)) := by
  constructor
  · intro h
    have hcond : secty.length = 0 ∨ secty.all PVal.isnan := by
      rcases h with h | h
      · left
        simp [h]
      · right
        rw [List.all_eq_true]
        exact h
    rw [update_curve_data]
    simp only [hcond, if_true, if_pos]
    cases hi : it.inverted <;> simp
  · intro ⟨h1, h2⟩
    have hcond : ¬(secty.length = 0 ∨ secty.all PVal.isnan) := by
      rintro (h | h)
      · exact h1 (List.length_eq_zero.mp h)
      · exact h2 (List.all_eq_true.mp h)
    rw [update_curve_data]
    simp only [hcond, if_false, if_neg]
    cases hi : it.inverted <;> simp

/-- C5 witness: an all-NaN profile is dropped to two empty arrays. -/
theorem update_curve_data_fallback_witness :
    (∀ v ∈ [PVal.nan, PVal.nan], PVal.isnan v = true) ∧
    (update_curve_data dfltItem ([PVal.num 1], [PVal.nan, PVal.nan])).xdata = []
    ∧ (update_curve_data dfltItem ([PVal.num 1], [PVal.nan, PVal.nan])).ydata = [] :=
  ⟨by decide,
    (update_curve_data_fallback dfltItem [PVal.num 1] [PVal.nan, PVal.nan]).1
      (Or.inr (by decide))⟩

/-- C6: `update_item` is a silent no-op — curve data unchanged, no
curve-changed signal emitted — when the weak source reference is dead (or
never set), the item is detached, or its plot is not visible. -/
theorem update_item_dead_source_noop (gcs : SObj → List PVal × List PVal)
    (it : CSItem) (obj : SObj)
    (h : getRef it.source = none ∨ it.plot = none ∨ it.plot_visible = false) :
    update_item gcs it obj = (it, false) := by
  rcases hp : it.plot with _ | p
  · rw [update_item, hp]
  · rw [update_item, hp]
    rcases h with h | h | h
    · simp [h]
    · rw [hp] at h
      exact absurd h (by simp)
    · simp [h]

/-- C6 witness: the dead-source item is untouched and nothing is emitted. -/
theorem update_item_dead_source_noop_witness :
    getRef csItemDead.source = none ∧
    update_item (fun _ => ([], [])) csItemDead marker0 = (csItemDead, false) :=
  ⟨rfl, update_item_dead_source_noop _ csItemDead marker0 (Or.inl rfl)⟩

/-- C7: a refresh with an omitted target re-uses the most recently
refreshed target and is a complete no-op when that weak reference has
expired; and a shape-changed event for a shape absent from the per-plot
registry is likewise a no-op. -/
theorem panel_refresh_reuse_and_noop (gcs : SObj → List PVal × List PVal)
    (st : Panel) (shape : SObj) :
    (get_last_obj st = none → panel_update_plot gcs st none = st)
    ∧ (∀ o, st.last_obj = some (some o) →
        panel_update_plot gcs st none = panel_update_plot gcs st (some o))
    ∧ ((∀ e ∈ st.shapes, shape ∉ e.2) → panel_shape_changed gcs st shape = st) := by
  refine ⟨?_, ?_, ?_⟩
  · intro h
    rw [panel_update_plot, h]
  · intro o ho
    have hlast : get_last_obj st = some o := by
      rw [get_last_obj, getRef, ho]
      rfl
    have hst : { st with last_obj := some (some o) } = st := by
      cases st
      simp_all
    rw [panel_update_plot, hlast, panel_update_plot, hst]
  · intro h
    have hk : is_shape_known st shape = false := by
      rw [is_shape_known, List.any_eq_false]
      intro e he
      simp [h e he]
    rw [panel_shape_changed, hk]
    simp

/-- C7 witness: refreshing with no target and an expired reference is a
no-op. -/
theorem panel_refresh_reuse_and_noop_witness :
    get_last_obj panelExpired = none ∧
    panel_update_plot (fun _ => ([], [])) panelExpired none = panelExpired :=
  ⟨rfl, (panel_refresh_reuse_and_noop _ panelExpired marker0).1 rfl⟩

/-- C8: on a refresh with `per_image_mode` disabled, every binding after
the first is hidden with its curve data untouched, and the first binding
is shown, receives the panel-wide `perimage_mode`/`autoscale_mode`/
`apply_lut` flags, and is recomputed through `update_item` for the
current object. -/
theorem panel_update_single_source_mode (gcs : SObj → List PVal × List PVal)
    (st : Panel) (o : SObj)
    (hper : st.perimage_mode = false) (hplot : ¬o.oplot = none) :
    ((panel_update_plot gcs st (some o)).known_items.length
        = st.known_items.length)
    ∧ (∀ i, 0 < i → i < st.known_items.length →
        (panel_update_plot gcs st (some o)).known_items.getD i dfltItem
          = { st.known_items.getD i dfltItem with visible := false })
    ∧ (0 < st.known_items.length →
        (panel_update_plot gcs st (some o)).known_items.getD 0 dfltItem
          = (update_item gcs
              { st.known_items.getD 0 dfltItem with
                visible := true,
                perimage_mode := st.perimage_mode,
                autoscale_mode := st.autoscale_mode,
                apply_lut := st.apply_lut } o).1) := by
  rw [panel_update_plot, panel_update_body, if_neg hplot]
  refine ⟨?_, ?_, ?_⟩
  · simp [List.enum_length]
  · intro i hi0 hilen
    rw [List.getD_eq_getElem?_getD, List.getElem?_map, List.getElem?_enum,
      List.getElem?_eq_getElem hilen]
    rw [List.getD_eq_getElem?_getD, List.getElem?_eq_getElem hilen]
    simp only [Option.map_some', Option.getD_some, hper, Bool.not_false,
      hi0, and_true, if_pos, Bool.false_eq_true, not_false_eq_true, true_and]
  · intro hlen
    rw [List.getD_eq_getElem?_getD, List.getElem?_map, List.getElem?_enum,
      List.getElem?_eq_getElem hlen]
    rw [List.getD_eq_getElem?_getD, List.getElem?_eq_getElem hlen]
    simp only [Option.map_some', Option.getD_some, lt_irrefl, and_false,
      if_false, hper]

/-- C8 witness: the second binding of `panel2` is hidden, data intact. -/
theorem panel_update_single_source_mode_witness :
    panel2.perimage_mode = false ∧
    (panel_update_plot (fun _ => ([], [])) panel2 (some marker0)).known_items.getD 1 dfltItem
      = { panel2.known_items.getD 1 dfltItem with visible := false } :=
  ⟨rfl,
    (panel_update_single_source_mode (fun _ => ([], [])) panel2 marker0 rfl
      (by decide)).2.1 1 (by decide) (by decide)⟩
